import Mathlib

/-!
Shallow embedding of the layout-arithmetic helpers of `src/alloc.rs`
(`padding_needed_for`, `repeat`, `array`, `new_layout_err`,
`handle_alloc_error`) over `Nat`, parametrised by the word width `w`
of `usize`: a `usize` value is a natural number `< 2 ^ w`, and the
wrapping operations reduce modulo `2 ^ w`.  Rust panics (an
`unwrap_err` applied to an `Ok`, a failing `debug_assert!`, the
`panic!` in `handle_alloc_error`) are modelled by `none`.
-/

namespace Alloc

/-- Rust `usize::MAX` on a `w`-bit machine. -/
def usizeMax (w : Nat) : Nat := 2 ^ w - 1

/-- Rust `usize::wrapping_add`. -/
def wrapping_add (w a b : Nat) : Nat := (a + b) % 2 ^ w

/-- Rust `usize::wrapping_sub`: `a - b` modulo `2 ^ w` (two-complement wraparound). -/
def wrapping_sub (w a b : Nat) : Nat := (a + (2 ^ w - b % 2 ^ w)) % 2 ^ w

/-- Bitwise NOT `!x` on a `w`-bit word; for `x < 2 ^ w` this is the
ones-complement of `x`. -/
def usizeNot (w x : Nat) : Nat := 2 ^ w - 1 - x

/-- Rust `usize::checked_add`: `none` on overflow past `usize::MAX`. -/
def checked_add (w a b : Nat) : Option Nat :=
  if a + b ≤ usizeMax w then some (a + b) else none

/-- Rust `usize::checked_mul`: `none` on overflow past `usize::MAX`. -/
def checked_mul (w a b : Nat) : Option Nat :=
  if a * b ≤ usizeMax w then some (a * b) else none

/-- Rust `usize::is_power_of_two`, via the classic `x != 0 && x & (x - 1) == 0`. -/
def is_power_of_two (x : Nat) : Bool := x != 0 && Nat.land x (x - 1) == 0

/-- Rust `core::alloc::Layout`: a `(size, align)` pair. -/
structure Layout where
  size : Nat
  align : Nat
  deriving DecidableEq, Repr

/-- Rust `core::alloc::LayoutErr`, a zero-data error marker. -/
inductive LayoutErr : Type where
  | mk : LayoutErr
  deriving DecidableEq, Repr

/-- Rust `Layout::from_size_align`: `Err` unless `align` is a power of two and
`size` rounded up to `align` fits in a `usize`. -/
def from_size_align (w size align : Nat) : Except LayoutErr Layout :=
  if is_power_of_two align then
    if usizeMax w - (align - 1) < size then Except.error LayoutErr.mk
    else Except.ok (Layout.mk size align)
  else Except.error LayoutErr.mk

/-- Rust `Layout::from_size_align_unchecked`. -/
def from_size_align_unchecked (size align : Nat) : Layout := Layout.mk size align

/-- Rust `Result::unwrap_err`: `some` the error, `none` (a panic) on `Ok`. -/
def unwrap_err {ε α : Type} : Except ε α → Option ε
  | Except.error e => some e
  | Except.ok _ => none

/-- The helper `new_layout_err()`: `Layout::from_size_align(1, 3).unwrap_err()`. -/
def new_layout_err (w : Nat) : Option LayoutErr := unwrap_err (from_size_align w 1 3)

/-- The helper `handle_alloc_error`: a `panic!`, so it never returns; `none` models the
panic and no value of `Empty` could be returned. -/
def handle_alloc_error (_layout : Layout) : Option Empty := none

/-- Rust `Option::ok_or_else(new_layout_err)` as used in `repeat`; a panic inside
`new_layout_err` would propagate as `none`. -/
def ok_or_else {α : Type} (w : Nat) (o : Option α) : Option (Except LayoutErr α) :=
  match o with
  | some a => some (Except.ok a)
  | none => Option.map Except.error (new_layout_err w)

/-- The `len_rounded_up` let-binding of `padding_needed_for`:
`len.wrapping_add(align).wrapping_sub(1) & !align.wrapping_sub(1)`. -/
def len_rounded_up (w len align : Nat) : Nat :=
  Nat.land (wrapping_sub w (wrapping_add w len align) 1)
    (usizeNot w (wrapping_sub w align 1))

/-- Rust `Layout::padding_needed_for`: `len_rounded_up.wrapping_sub(len)`. -/
def Layout.padding_needed_for (w : Nat) (self : Layout) (align : Nat) : Nat :=
  wrapping_sub w (len_rounded_up w self.size align) self.size

/-- Rust `Layout::repeat`; `none` models a panic, `some (Except.error e)` an
`Err`, `some (Except.ok (layout, stride))` an `Ok`. -/
def Layout.repeat (w : Nat) (self : Layout) (n : Nat) :
    Option (Except LayoutErr (Layout × Nat)) :=
  match ok_or_else w (checked_add w self.size (self.padding_needed_for w self.align)) with
  | none => none
  | some (Except.error e) => some (Except.error e)
  | some (Except.ok padded_size) =>
    match ok_or_else w (checked_mul w padded_size n) with
    | none => none
    | some (Except.error e) => some (Except.error e)
    | some (Except.ok alloc_size) =>
      some (Except.ok (from_size_align_unchecked alloc_size self.align, padded_size))

/-- Rust `Layout::array::<T>(n)`; the element type `T` enters only through
`size_of::<T>()` and `align_of::<T>()`, passed here as `tSize`, `tAlign`;
`Layout::new::<T>()` is the layout `(tSize, tAlign)`.  A failing
`debug_assert!(offs == mem::size_of::<T>())` is a panic, i.e. `none`. -/
def array (w tSize tAlign n : Nat) : Option (Except LayoutErr Layout) :=
  match Layout.repeat w (Layout.mk tSize tAlign) n with
  | none => none
  | some (Except.error e) => some (Except.error e)
  | some (Except.ok (k, offs)) =>
    if offs = tSize then some (Except.ok k) else none

/-! ### Helper lemmas -/

/-- Masking with the high bits `2 ^ w - 2 ^ k` rounds a `w`-bit value down
to a multiple of `2 ^ k`. -/
theorem land_mask (w k t : Nat) (hk : k ≤ w) (ht : t < 2 ^ w) :
    Nat.land t (2 ^ w - 2 ^ k) = t - t % 2 ^ k := by
  have hmask : 2 ^ w - 2 ^ k = (2 ^ (w - k) - 1) <<< k := by
    rw [Nat.shiftLeft_eq, Nat.sub_mul, one_mul, ← Nat.pow_add, Nat.sub_add_cancel hk]
  have hcomm : 2 ^ k * (t / 2 ^ k) = t / 2 ^ k * 2 ^ k := Nat.mul_comm _ _
  have hdm : 2 ^ k * (t / 2 ^ k) + t % 2 ^ k = t := Nat.div_add_mod t (2 ^ k)
  have hrhs : t - t % 2 ^ k = (t >>> k) <<< k := by
    rw [Nat.shiftRight_eq_div_pow, Nat.shiftLeft_eq]
    omega
  rw [hmask, hrhs]
  show t &&& (2 ^ (w - k) - 1) <<< k = (t >>> k) <<< k
  apply Nat.eq_of_testBit_eq
  intro i
  rw [Nat.testBit_land, Nat.testBit_shiftLeft, Nat.testBit_shiftLeft,
    Nat.testBit_shiftRight, Nat.testBit_two_pow_sub_one]
  by_cases hki : k ≤ i
  · have hik : k + (i - k) = i := by omega
    rw [hik]
    by_cases hiw : i < w
    · have h1 : i - k < w - k := by omega
      simp [hki, h1]
    · have h2 : t.testBit i = false :=
        Nat.testBit_lt_two_pow
          (lt_of_lt_of_le ht (Nat.pow_le_pow_right (by omega) (by omega)))
      have h3 : ¬ (i - k < w - k) := by omega
      simp [hki, h2, h3]
  · simp [hki]

/-- The arithmetic heart of `padding_needed_for`: for any modulus `M`
divisible by `A`, rounding `(len + A - 1) % M` down to a multiple of `A`
and wrap-subtracting `len` gives `(A - len % A) % A`. -/
theorem pad_arith (M A len : Nat) (hA : 0 < A) (hAM : A ∣ M) (hALt : A < M)
    (hlen : len < M) :
    ((len + A - 1) % M - ((len + A - 1) % M) % A + (M - len)) % M
      = (A - len % A) % A := by
  obtain ⟨m, hm⟩ := hAM
  have hr : len % A < A := Nat.mod_lt _ hA
  have hld : A * (len / A) + len % A = len := Nat.div_add_mod len A
  have hmodle : len % A ≤ len := Nat.mod_le len A
  by_cases hc : len + A - 1 < M
  · have ht : (len + A - 1) % M = len + A - 1 := Nat.mod_eq_of_lt hc
    rw [ht]
    have hsplit : len + A - 1 = len % A + A - 1 + A * (len / A) := by omega
    have htA : (len + A - 1) % A = (len % A + A - 1) % A := by
      rw [hsplit, Nat.add_mul_mod_self_left]
    by_cases hr0 : len % A = 0
    · have h1 : (len + A - 1) % A = A - 1 := by
        rw [htA, hr0]
        have h0 : 0 + A - 1 = A - 1 := by omega
        rw [h0]
        exact Nat.mod_eq_of_lt (by omega)
      rw [h1]
      have h2 : len + A - 1 - (A - 1) + (M - len) = M := by omega
      rw [h2, Nat.mod_self, hr0, Nat.sub_zero, Nat.mod_self]
    · have hr1 : 1 ≤ len % A := by omega
      have h1 : (len + A - 1) % A = len % A - 1 := by
        rw [htA]
        have h0 : len % A + A - 1 = (len % A - 1) + A := by omega
        rw [h0, Nat.add_mod_right]
        exact Nat.mod_eq_of_lt (by omega)
      rw [h1]
      have h2 : len + A - 1 - (len % A - 1) + (M - len) = M + (A - len % A) := by omega
      have hfin1 : (M + (A - len % A)) % M = (A - len % A) % M := Nat.add_mod_left M _
      have hfin2 : (A - len % A) % M = A - len % A := Nat.mod_eq_of_lt (by omega)
      have hfin3 : (A - len % A) % A = A - len % A := Nat.mod_eq_of_lt (by omega)
      rw [h2, hfin1, hfin2, hfin3]
  · have hmlen : M ≤ len + A - 1 := by omega
    have hA2 : 2 ≤ A := by omega
    have ht : (len + A - 1) % M = len + A - 1 - M := by
      rw [Nat.mod_eq_sub_mod hmlen]
      exact Nat.mod_eq_of_lt (by omega)
    rw [ht]
    have ht2 : (len + A - 1 - M) % A = len + A - 1 - M := Nat.mod_eq_of_lt (by omega)
    rw [ht2]
    have h3 : len + A - 1 - M - (len + A - 1 - M) + (M - len) = M - len := by omega
    rw [h3]
    have h4 : (M - len) % M = M - len := Nat.mod_eq_of_lt (by omega)
    rw [h4]
    have hm1 : 1 ≤ m := by
      rcases m with _ | m2
      · simp at hm
        omega
      · omega
    have hMA : M - A = A * (m - 1) := by
      rcases m with _ | m2
      · omega
      · rw [Nat.mul_succ] at hm
        have hs : Nat.succ m2 - 1 = m2 := rfl
        rw [hs]
        omega
    have hlenA : len = A - (M - len) + A * (m - 1) := by omega
    have h5 : len % A = A - (M - len) := by
      conv_lhs => rw [hlenA]
      rw [Nat.add_mul_mod_self_left]
      exact Nat.mod_eq_of_lt (by omega)
    rw [h5]
    have h6 : A - (A - (M - len)) = M - len := by omega
    rw [h6]
    exact (Nat.mod_eq_of_lt (by omega)).symm

/-- The value `len_rounded_up` is `(len + align - 1) % 2 ^ w` rounded down to a
multiple of `align`, for a power-of-two `align = 2 ^ k < 2 ^ w`. -/
theorem len_rounded_up_eq (w k len : Nat) (hk : k < w) :
    len_rounded_up w len (2 ^ k)
      = (len + 2 ^ k - 1) % 2 ^ w - ((len + 2 ^ k - 1) % 2 ^ w) % 2 ^ k := by
  have hA : 0 < 2 ^ k := Nat.pow_pos (by omega : 0 < 2)
  have hAM : 2 ^ k < 2 ^ w := Nat.pow_lt_pow_right (by omega) hk
  have h1lt : 1 < 2 ^ w := by omega
  have e1 : wrapping_sub w (2 ^ k) 1 = 2 ^ k - 1 := by
    unfold wrapping_sub
    rw [Nat.mod_eq_of_lt h1lt]
    have h0 : 2 ^ k + (2 ^ w - 1) = (2 ^ k - 1) + 2 ^ w := by omega
    rw [h0, Nat.add_mod_right]
    exact Nat.mod_eq_of_lt (by omega)
  have e2 : usizeNot w (2 ^ k - 1) = 2 ^ w - 2 ^ k := by
    unfold usizeNot
    omega
  have e3 : wrapping_sub w (wrapping_add w len (2 ^ k)) 1
      = (len + 2 ^ k - 1) % 2 ^ w := by
    unfold wrapping_sub wrapping_add
    rw [Nat.mod_eq_of_lt h1lt, Nat.mod_add_mod]
    have h0 : len + 2 ^ k + (2 ^ w - 1) = (len + 2 ^ k - 1) + 2 ^ w := by omega
    rw [h0, Nat.add_mod_right]
  unfold len_rounded_up
  rw [e1, e2, e3]
  exact land_mask w k _ (le_of_lt hk) (Nat.mod_lt _ (by omega))

/-- Closed form of `padding_needed_for` for a power-of-two alignment,
valid for every `size < 2 ^ w`, overflow case included. -/
theorem padding_eq_mod (w k : Nat) (self : Layout) (hk : k < w)
    (hsz : self.size < 2 ^ w) :
    self.padding_needed_for w (2 ^ k) = (2 ^ k - self.size % 2 ^ k) % 2 ^ k := by
  have hA : 0 < 2 ^ k := Nat.pow_pos (by omega : 0 < 2)
  have hAM : 2 ^ k < 2 ^ w := Nat.pow_lt_pow_right (by omega) hk
  have hdvd : 2 ^ k ∣ 2 ^ w := pow_dvd_pow 2 (le_of_lt hk)
  unfold Layout.padding_needed_for
  rw [len_rounded_up_eq w k self.size hk]
  unfold wrapping_sub
  rw [Nat.mod_eq_of_lt hsz]
  exact pad_arith (2 ^ w) (2 ^ k) self.size hA hdvd hAM hsz

/-- The padding is always strictly below the (power-of-two) alignment. -/
theorem padding_lt (w k : Nat) (self : Layout) (hk : k < w)
    (hsz : self.size < 2 ^ w) :
    self.padding_needed_for w (2 ^ k) < 2 ^ k := by
  rw [padding_eq_mod w k self hk hsz]
  exact Nat.mod_lt _ (Nat.pow_pos (by omega : 0 < 2))

/-- The sum `size + padding` is always a multiple of the alignment (as an exact
natural number, overflow case included). -/
theorem padding_dvd (w k : Nat) (self : Layout) (hk : k < w)
    (hsz : self.size < 2 ^ w) :
    2 ^ k ∣ (self.size + self.padding_needed_for w (2 ^ k)) := by
  rw [padding_eq_mod w k self hk hsz]
  have hA : 0 < 2 ^ k := Nat.pow_pos (by omega : 0 < 2)
  have hld : 2 ^ k * (self.size / 2 ^ k) + self.size % 2 ^ k = self.size :=
    Nat.div_add_mod _ _
  by_cases h0 : self.size % 2 ^ k = 0
  · rw [h0, Nat.sub_zero, Nat.mod_self]
    exact ⟨self.size / 2 ^ k, by omega⟩
  · have hr1 : (2 ^ k - self.size % 2 ^ k) % 2 ^ k = 2 ^ k - self.size % 2 ^ k :=
      Nat.mod_eq_of_lt (by omega)
    rw [hr1]
    refine ⟨self.size / 2 ^ k + 1, ?_⟩
    rw [Nat.mul_add, Nat.mul_one]
    have hr : self.size % 2 ^ k < 2 ^ k := Nat.mod_lt _ hA
    omega

/-- The sum `size + padding` is the *smallest* multiple of the alignment that is
at least `size`. -/
theorem padding_min (w k : Nat) (self : Layout) (hk : k < w)
    (hsz : self.size < 2 ^ w) (m : Nat) (hdvd : 2 ^ k ∣ m)
    (hle : self.size ≤ m) :
    self.size + self.padding_needed_for w (2 ^ k) ≤ m := by
  by_contra hlt
  push_neg at hlt
  have h1 : 2 ^ k ∣ (self.size + self.padding_needed_for w (2 ^ k) - m) :=
    Nat.dvd_sub' (padding_dvd w k self hk hsz) hdvd
  have h2 : 0 < self.size + self.padding_needed_for w (2 ^ k) - m := by omega
  have h3 : 2 ^ k ≤ self.size + self.padding_needed_for w (2 ^ k) - m :=
    Nat.le_of_dvd h2 h1
  have h4 : self.padding_needed_for w (2 ^ k) < 2 ^ k := padding_lt w k self hk hsz
  omega

/-- A size that is already a multiple of the alignment needs no padding. -/
theorem padding_zero_of_dvd (w k : Nat) (self : Layout) (hk : k < w)
    (hsz : self.size < 2  ^ w) (hdvd : 2 ^ k ∣ self.size) :
    self.padding_needed_for w (2 ^ k) = 0 := by
  rw [padding_eq_mod w k self hk hsz, Nat.mod_eq_zero_of_dvd hdvd,
    Nat.sub_zero, Nat.mod_self]

/-- The helper `new_layout_err` never panics: `from_size_align(1, 3)` is an `Err`
because 3 is not a power of two, so `unwrap_err` yields the error. -/
theorem new_layout_err_eq (w : Nat) : new_layout_err w = some LayoutErr.mk := rfl

/-- Full characterization of `repeat`: it succeeds with the padded size as
stride and `stride * n` as total size when both checked operations fit in a
`usize`, and returns the `LayoutErr` otherwise; it never panics. -/
theorem repeat_eq (w : Nat) (self : Layout) (n : Nat) :
    Layout.repeat w self n =
      if self.size + self.padding_needed_for w self.align ≤ usizeMax w then
        if (self.size + self.padding_needed_for w self.align) * n ≤ usizeMax w then
          some (Except.ok
            (Layout.mk ((self.size + self.padding_needed_for w self.align) * n)
                self.align,
              self.size + self.padding_needed_for w self.align))
        else some (Except.error LayoutErr.mk)
      else some (Except.error LayoutErr.mk) := by
  unfold Layout.repeat checked_add checked_mul ok_or_else from_size_align_unchecked
  by_cases h1 : self.size + self.padding_needed_for w self.align ≤ usizeMax w
  · by_cases h2 :
        (self.size + self.padding_needed_for w self.align) * n ≤ usizeMax w
    · simp [h1, h2]
    · simp [h1, h2, new_layout_err_eq]
  · simp [h1, new_layout_err_eq]

/-- The function `repeat` never panics (is never `none`). -/
theorem repeat_ne_none (w : Nat) (self : Layout) (n : Nat) :
    Layout.repeat w self n ≠ none := by
  rw [repeat_eq]
  by_cases h1 : self.size + self.padding_needed_for w self.align ≤ usizeMax w <;>
    by_cases h2 :
      (self.size + self.padding_needed_for w self.align) * n ≤ usizeMax w <;>
    simp [h1, h2]

/-- The function `repeat` on a layout whose size is already a multiple of its
power-of-two alignment: the stride is exactly the size. -/
theorem repeat_of_dvd (w k tSize n : Nat) (hk : k < w) (hsz : tSize < 2 ^ w)
    (hdvd : 2 ^ k ∣ tSize) :
    Layout.repeat w (Layout.mk tSize (2 ^ k)) n =
      if tSize * n ≤ usizeMax w then
        some (Except.ok (Layout.mk (tSize * n) (2 ^ k), tSize))
      else some (Except.error LayoutErr.mk) := by
  have hpad : Layout.padding_needed_for w (Layout.mk tSize (2 ^ k))
      ((Layout.mk tSize (2 ^ k)).align) = 0 :=
    padding_zero_of_dvd w k _ hk hsz hdvd
  rw [repeat_eq, hpad]
  have e1 : (Layout.mk tSize (2 ^ k)).size + 0 = tSize := rfl
  have e2 : (Layout.mk tSize (2 ^ k)).align = 2 ^ k := rfl
  rw [e1, e2]
  have hle : tSize ≤ usizeMax w := by
    have hpos : 0 < 2 ^ w := Nat.pow_pos (by omega : 0 < 2)
    unfold usizeMax
    omega
  rw [if_pos hle]

/-- On the same natural layouts, `array` either succeeds with the exact
product size or reports the overflow error; the `debug_assert!` passes. -/
theorem array_of_dvd (w k tSize n : Nat) (hk : k < w) (hsz : tSize < 2 ^ w)
    (hdvd : 2 ^ k ∣ tSize) :
    array w tSize (2 ^ k) n =
      if tSize * n ≤ usizeMax w then
        some (Except.ok (Layout.mk (tSize * n) (2 ^ k)))
      else some (Except.error LayoutErr.mk) := by
  unfold array
  rw [repeat_of_dvd w k tSize n hk hsz hdvd]
  by_cases h2 : tSize * n ≤ usizeMax w
  · rw [if_pos h2, if_pos h2]
    simp
  · rw [if_neg h2, if_neg h2]

/-- The function `array` on a natural layout never panics. -/
theorem array_isSome_of_dvd (w k tSize n : Nat) (hk : k < w)
    (hsz : tSize < 2 ^ w) (hdvd : 2 ^ k ∣ tSize) :
    (array w tSize (2 ^ k) n).isSome = true := by
  rw [array_of_dvd w k tSize n hk hsz hdvd]
  by_cases h2 : tSize * n ≤ usizeMax w
  · rw [if_pos h2]
    rfl
  · rw [if_neg h2]
    rfl

/-! ### Claim theorems -/

/-- C1: for every size and power-of-two alignment `2 ^ k` such that
`size + align - 1` does not overflow the machine word, `padding_needed_for`
returns `p < align` with `(size + p) % align = 0`, and `size + p` is the
smallest multiple of `align` that is at least `size`. -/
theorem padding_needed_for_correct (w k size : Nat) (hk : k < w)
    (hno : size + 2 ^ k - 1 ≤ usizeMax w) :
    (Layout.padding_needed_for w (Layout.mk size (2 ^ k)) (2 ^ k) < 2 ^ k ∧
      (size + Layout.padding_needed_for w (Layout.mk size (2 ^ k)) (2 ^ k)) % 2 ^ k
        = 0) ∧
    ∀ m, 2 ^ k ∣ m → size ≤ m →
      size + Layout.padding_needed_for w (Layout.mk size (2 ^ k)) (2 ^ k) ≤ m := by
  have hA : 0 < 2 ^ k := Nat.pow_pos (by omega : 0 < 2)
  have hAM : 2 ^ k < 2 ^ w := Nat.pow_lt_pow_right (by omega) hk
  have hsz : size < 2 ^ w := by
    unfold usizeMax at hno
    omega
  exact ⟨⟨padding_lt w k (Layout.mk size (2 ^ k)) hk hsz,
      Nat.mod_eq_zero_of_dvd (padding_dvd w k (Layout.mk size (2 ^ k)) hk hsz)⟩,
    fun m hd hle => padding_min w k (Layout.mk size (2 ^ k)) hk hsz m hd hle⟩

/-- Witness for C1 at `w = 64`, `align = 2 ^ 2`, `size = 5`. -/
theorem padding_needed_for_correct_witness :
    (2 < 64 ∧ 5 + 2 ^ 2 - 1 ≤ usizeMax 64) ∧
    Layout.padding_needed_for 64 (Layout.mk 5 (2 ^ 2)) (2 ^ 2) < 2 ^ 2 ∧
    (5 + Layout.padding_needed_for 64 (Layout.mk 5 (2 ^ 2)) (2 ^ 2)) % 2 ^ 2 = 0 :=
  ⟨⟨by decide, by decide⟩,
    (padding_needed_for_correct 64 2 5 (by decide) (by decide)).1⟩

/-- C2: whenever `repeat` succeeds, the returned stride is `layout.size`
rounded up to the next multiple of `layout.align` (it is a multiple of the
alignment, at least the size, and less than size + align), the returned
size is exactly `stride * n` with no wrapping, and the alignment is
inherited unchanged. -/
theorem repeat_success_spec (w k n : Nat) (l l2 : Layout) (stride : Nat)
    (hk : k < w) (ha : l.align = 2 ^ k) (hs : l.size < 2 ^ w)
    (h : Layout.repeat w l n = some (Except.ok (l2, stride))) :
    (l.size ≤ stride ∧ 2 ^ k ∣ stride ∧ stride < l.size + 2 ^ k) ∧
    l2.size = stride * n ∧ l2.align = l.align := by
  rw [repeat_eq, ha] at h
  by_cases h1 : l.size + l.padding_needed_for w (2 ^ k) ≤ usizeMax w
  · by_cases h2 : (l.size + l.padding_needed_for w (2 ^ k)) * n ≤ usizeMax w
    · rw [if_pos h1, if_pos h2] at h
      simp only [Option.some.injEq, Except.ok.injEq, Prod.mk.injEq] at h
      obtain ⟨hL, hS⟩ := h
      subst hS
      subst hL
      have hplt : l.padding_needed_for w (2 ^ k) < 2 ^ k := padding_lt w k l hk hs
      refine ⟨⟨Nat.le_add_right _ _, padding_dvd w k l hk hs, by omega⟩, rfl, ha.symm⟩
    · rw [if_pos h1, if_neg h2] at h
      simp at h
  · rw [if_neg h1] at h
    simp at h

/-- Witness for C2 at `w = 64`, layout `(5, 4)`, `n = 3`. -/
theorem repeat_success_spec_witness :
    (2 < 64 ∧ (Layout.mk 5 (2 ^ 2)).align = 2 ^ 2 ∧
      (Layout.mk 5 (2 ^ 2)).size < 2 ^ 64 ∧
      Layout.repeat 64 (Layout.mk 5 (2 ^ 2)) 3
        = some (Except.ok (Layout.mk 24 (2 ^ 2), 8))) ∧
    (Layout.mk 24 (2 ^ 2)).size = 8 * 3 ∧
    (Layout.mk 24 (2 ^ 2)).align = (Layout.mk 5 (2 ^ 2)).align :=
  ⟨⟨by decide, rfl, by decide, rfl⟩,
    (repeat_success_spec 64 2 3 (Layout.mk 5 (2 ^ 2)) (Layout.mk 24 (2 ^ 2)) 8
      (by decide) rfl (by decide) rfl).2⟩

/-- C3: `repeat` returns an error exactly when the checked size-plus-padding
or the checked multiplication by `n` exceeds `usize::MAX`; it has no other
failure mode (it never panics); and on `(size = usize::MAX, align = 1)`,
`n = 2` (with `w = 64`) it returns the error, not a wrapped success. -/
theorem repeat_error_characterization (w : Nat) (l : Layout) (n : Nat) :
    (Layout.repeat w l n = some (Except.error LayoutErr.mk) ↔
      (usizeMax w < l.size + l.padding_needed_for w l.align ∨
        usizeMax w < (l.size + l.padding_needed_for w l.align) * n)) ∧
    Layout.repeat w l n ≠ none ∧
    Layout.repeat 64 (Layout.mk (usizeMax 64) 1) 2
      = some (Except.error LayoutErr.mk) := by
  refine ⟨?_, repeat_ne_none w l n, rfl⟩
  rw [repeat_eq]
  by_cases h1 : l.size + l.padding_needed_for w l.align ≤ usizeMax w
  · by_cases h2 : (l.size + l.padding_needed_for w l.align) * n ≤ usizeMax w
    · rw [if_pos h1, if_pos h2]
      simp only [Option.some.injEq]
      constructor
      · intro hfalse
        exact absurd hfalse (by simp)
      · intro hor
        omega
    · rw [if_pos h1, if_neg h2]
      simp only [true_iff]
      omega
  · rw [if_neg h1]
    simp only [true_iff]
    omega

/-- C4: `padding_needed_for` is total, and in the degenerate case where
`size + align - 1` overflows the word, the masked `len_rounded_up` is 0 and
the padding added to `size` with wrapping arithmetic yields 0, a multiple
of the alignment. -/
theorem padding_overflow_degenerate_zero (w k size : Nat) (hk : k < w)
    (hsz : size < 2 ^ w) (hov : 2 ^ w ≤ size + 2 ^ k - 1) :
    (len_rounded_up w size (2 ^ k) = 0 ∧
      wrapping_add w size
        (Layout.padding_needed_for w (Layout.mk size (2 ^ k)) (2 ^ k)) = 0) ∧
    2 ^ k ∣ wrapping_add w size
        (Layout.padding_needed_for w (Layout.mk size (2 ^ k)) (2 ^ k)) := by
  have hA : 0 < 2 ^ k := Nat.pow_pos (by omega : 0 < 2)
  have hAM : 2 ^ k < 2 ^ w := Nat.pow_lt_pow_right (by omega) hk
  have hsz1 : 1 ≤ size := by omega
  have ht : (size + 2 ^ k - 1) % 2 ^ w = size + 2 ^ k - 1 - 2 ^ w := by
    rw [Nat.mod_eq_sub_mod (by omega)]
    exact Nat.mod_eq_of_lt (by omega)
  have hlru : len_rounded_up w size (2 ^ k) = 0 := by
    rw [len_rounded_up_eq w k size hk, ht, Nat.mod_eq_of_lt (by omega)]
    omega
  have hpad : Layout.padding_needed_for w (Layout.mk size (2 ^ k)) (2 ^ k)
      = 2 ^ w - size := by
    show wrapping_sub w (len_rounded_up w size (2 ^ k)) size = 2 ^ w - size
    rw [hlru]
    unfold wrapping_sub
    rw [Nat.mod_eq_of_lt hsz]
    have h0 : 0 + (2 ^ w - size) = 2 ^ w - size := by omega
    rw [h0]
    exact Nat.mod_eq_of_lt (by omega)
  have hzero : wrapping_add w size
      (Layout.padding_needed_for w (Layout.mk size (2 ^ k)) (2 ^ k)) = 0 := by
    rw [hpad]
    unfold wrapping_add
    have h0 : size + (2 ^ w - size) = 2 ^ w := by omega
    rw [h0, Nat.mod_self]
  refine ⟨⟨hlru, hzero⟩, ?_⟩
  rw [hzero]
  exact Dvd.intro 0 rfl

/-- Witness for C4 at `w = 8`, `align = 2 ^ 2`, `size = 254`
(`254 + 4 - 1 = 257` overflows the 8-bit word). -/
theorem padding_overflow_degenerate_zero_witness :
    (2 < 8 ∧ 254 < 2 ^ 8 ∧ 2 ^ 8 ≤ 254 + 2 ^ 2 - 1) ∧
    len_rounded_up 8 254 (2 ^ 2) = 0 ∧
    wrapping_add 8 254
      (Layout.padding_needed_for 8 (Layout.mk 254 (2 ^ 2)) (2 ^ 2)) = 0 :=
  ⟨⟨by decide, by decide, by decide⟩,
    (padding_overflow_degenerate_zero 8 2 254 (by decide) (by decide)
      (by decide)).1⟩

/-- C5: for an element whose natural size is a multiple of its natural
alignment, a successful `array` returns exactly `size_of * n` with the
alignment of the element; concretely `array::<u32>(4)` gives size 16, align 4. -/
theorem array_natural_size (w k tSize n : Nat) (L : Layout) (hk : k < w)
    (hsz : tSize < 2 ^ w) (hdvd : 2 ^ k ∣ tSize)
    (h : array w tSize (2 ^ k) n = some (Except.ok L)) :
    (L.size = tSize * n ∧ L.align = 2 ^ k) ∧
    array 64 4 4 4 = some (Except.ok (Layout.mk 16 4)) := by
  refine ⟨?_, rfl⟩
  rw [array_of_dvd w k tSize n hk hsz hdvd] at h
  by_cases h2 : tSize * n ≤ usizeMax w
  · rw [if_pos h2] at h
    simp only [Option.some.injEq, Except.ok.injEq] at h
    subst h
    exact ⟨rfl, rfl⟩
  · rw [if_neg h2] at h
    simp at h

/-- Witness for C5 at `w = 64`, element `(size, align) = (4, 2 ^ 2)`
(i.e. `u32`), `n = 4`. -/
theorem array_natural_size_witness :
    (2 < 64 ∧ 4 < 2 ^ 64 ∧ 2 ^ 2 ∣ 4 ∧
      array 64 4 (2 ^ 2) 4 = some (Except.ok (Layout.mk 16 (2 ^ 2)))) ∧
    (Layout.mk 16 (2 ^ 2)).size = 4 * 4 ∧ (Layout.mk 16 (2 ^ 2)).align = 2 ^ 2 :=
  ⟨⟨by decide, by decide, by decide, rfl⟩,
    (array_natural_size 64 2 4 4 (Layout.mk 16 (2 ^ 2)) (by decide) (by decide)
      (by decide) rfl).1⟩

/-- C6: concrete scenario — padding of size 5 to alignment 4 is 3, and
`repeat` on layout `(5, 4)` with `n = 3` yields layout `(24, 4)` with
stride 8. -/
theorem concrete_padding_and_repeat :
    Layout.padding_needed_for 64 (Layout.mk 5 4) 4 = 3 ∧
    Layout.repeat 64 (Layout.mk 5 4) 3 = some (Except.ok (Layout.mk 24 4, 8)) :=
  ⟨by decide, rfl⟩

/-- C7: for elements whose natural size is a multiple of their alignment,
whenever `repeat` on the natural layout succeeds the stride equals the
natural size, so the `debug_assert!` in `array` never fires and `array`
never panics. -/
theorem array_assert_never_fires (w k tSize n : Nat) (hk : k < w)
    (hsz : tSize < 2 ^ w) (hdvd : 2 ^ k ∣ tSize) :
    (array w tSize (2 ^ k) n).isSome = true ∧
    ∀ L offs, Layout.repeat w (Layout.mk tSize (2 ^ k)) n
        = some (Except.ok (L, offs)) → offs = tSize := by
  refine ⟨array_isSome_of_dvd w k tSize n hk hsz hdvd, ?_⟩
  intro L offs h
  rw [repeat_of_dvd w k tSize n hk hsz hdvd] at h
  by_cases h2 : tSize * n ≤ usizeMax w
  · rw [if_pos h2] at h
    simp only [Option.some.injEq, Except.ok.injEq, Prod.mk.injEq] at h
    exact h.2.symm
  · rw [if_neg h2] at h
    simp at h

/-- Witness for C7 at `w = 64`, element `(4, 2 ^ 2)`, `n = 4`. -/
theorem array_assert_never_fires_witness :
    (2 < 64 ∧ 4 < 2 ^ 64 ∧ 2 ^ 2 ∣ 4) ∧
    (array 64 4 (2 ^ 2) 4).isSome = true :=
  ⟨⟨by decide, by decide, by decide⟩,
    (array_assert_never_fires 64 2 4 4 (by decide) (by decide) (by decide)).1⟩

/-- C8: `handle_alloc_error` never returns (it always panics), while the
arithmetic functions never panic or abort: `padding_needed_for` is a total
function into `Nat` by construction, `repeat` always returns a value for
every input, and `array` always returns a value on every naturally-sized
element. -/
theorem handle_alloc_error_never_returns (w k tSize n m : Nat) (l l2 : Layout)
    (hk : k < w) (hsz : tSize < 2 ^ w) (hdvd : 2 ^ k ∣ tSize) :
    (handle_alloc_error l2 = none ∧
      (Layout.repeat w l m).isSome = true) ∧
    (array w tSize (2 ^ k) n).isSome = true :=
  ⟨⟨rfl, Option.isSome_iff_ne_none.mpr (repeat_ne_none w l m)⟩,
    array_isSome_of_dvd w k tSize n hk hsz hdvd⟩

/-- Witness for C8 at `w = 64`, element `(4, 2 ^ 2)`, `n = 4`, `m = 3`,
layouts `(5, 4)` and `(1, 1)`. -/
theorem handle_alloc_error_never_returns_witness :
    (2 < 64 ∧ 4 < 2 ^ 64 ∧ 2 ^ 2 ∣ 4) ∧
    handle_alloc_error (Layout.mk 1 1) = none ∧
    (Layout.repeat 64 (Layout.mk 5 4) 3).isSome = true :=
  ⟨⟨by decide, by decide, by decide⟩,
    (handle_alloc_error_never_returns 64 2 4 4 3 (Layout.mk 5 4) (Layout.mk 1 1)
      (by decide) (by decide) (by decide)).1⟩

/-- C9: for every `size < 2 ^ w` and power-of-two alignment `2 ^ k`,
including the overflow-degenerate case, the padding equals
`(align - size % align) % align`, is strictly below `align`, and the
wrapped sum `(size + p) mod 2 ^ w` is a multiple of `align`; no carve-out
is needed. -/
theorem padding_universal_formula (w k size : Nat) (hk : k < w)
    (hsz : size < 2 ^ w) :
    (Layout.padding_needed_for w (Layout.mk size (2 ^ k)) (2 ^ k)
        = (2 ^ k - size % 2 ^ k) % 2 ^ k ∧
      Layout.padding_needed_for w (Layout.mk size (2 ^ k)) (2 ^ k) < 2 ^ k) ∧
    2 ^ k ∣ wrapping_add w size
        (Layout.padding_needed_for w (Layout.mk size (2 ^ k)) (2 ^ k)) := by
  refine ⟨⟨padding_eq_mod w k (Layout.mk size (2 ^ k)) hk hsz,
    padding_lt w k (Layout.mk size (2 ^ k)) hk hsz⟩, ?_⟩
  unfold wrapping_add
  have hdvd2 : 2 ^ k ∣ 2 ^ w := pow_dvd_pow 2 (le_of_lt hk)
  exact (Nat.dvd_mod_iff hdvd2).mpr
    (padding_dvd w k (Layout.mk size (2 ^ k)) hk hsz)

/-- Witness for C9 at `w = 8`, `align = 2 ^ 2`, the overflow-degenerate
size 255 (`255 + 4 - 1` wraps): padding is `(4 - 255 % 4) % 4 = 1`. -/
theorem padding_universal_formula_witness :
    (2 < 8 ∧ 255 < 2 ^ 8) ∧
    Layout.padding_needed_for 8 (Layout.mk 255 (2 ^ 2)) (2 ^ 2)
        = (2 ^ 2 - 255 % 2 ^ 2) % 2 ^ 2 ∧
    Layout.padding_needed_for 8 (Layout.mk 255 (2 ^ 2)) (2 ^ 2) < 2 ^ 2 :=
  ⟨⟨by decide, by decide⟩,
    (padding_universal_formula 8 2 255 (by decide) (by decide)).1⟩

/-- C10: `Layout::from_size_align(1, 3)` always returns an error (3 is not
a power of two), so the `unwrap_err` in `new_layout_err` always succeeds and
`repeat` reports every overflow as a returned `LayoutErr`, never as a
panic. -/
theorem new_layout_err_never_panics (w : Nat) :
    (from_size_align w 1 3 = Except.error LayoutErr.mk ∧
      new_layout_err w = some LayoutErr.mk) ∧
    ∀ l n, Layout.repeat w l n ≠ none :=
  ⟨⟨rfl, rfl⟩, fun l n => repeat_ne_none w l n⟩

example : Layout.padding_needed_for 64 (Layout.mk 5 4) 4 = 3 := by decide
example : Layout.repeat 64 (Layout.mk 5 4) 3 =
    some (Except.ok (Layout.mk 24 4, 8)) := rfl
example : array 64 4 4 4 = some (Except.ok (Layout.mk 16 4)) := rfl
example : Layout.repeat 64 (Layout.mk (2 ^ 64 - 1) 1) 2 =
    some (Except.error LayoutErr.mk) := rfl
example : new_layout_err 64 = some LayoutErr.mk := rfl
example (w : Nat) : new_layout_err w = some LayoutErr.mk := rfl

end Alloc
